import Mathlib

/-!
Shallow embedding of the portfolio/order-lifecycle engine of the
ParadoxTrading repository (`ParadoxTrading/Engine/Portfolio.py`).

Python dictionaries are modelled as association lists with first-match
lookup and replace-first update; Python `int` is `Int`; `assert` failures
and `raise Exception` are modelled as explicit error values.  Book-level
operations that in Python may mutate `self` before raising return a pair
`(new state, optional error)` so that partial mutation before a failure is
visible; operations that check every precondition before mutating return
`Except`.
-/

set_option autoImplicit false

namespace ParadoxTrading

/-! ### Association-list helpers (model of Python `dict`) -/

/-- First-match lookup in an association list, mirroring Python `d[k]`. -/
def lookupKey {α β : Type} [DecidableEq α] : List (α × β) → α → Option β
  | [], _ => none
  | kv :: rest, k => if kv.1 = k then some kv.2 else lookupKey rest k

/-- Membership test, mirroring Python `k in d.keys()`. -/
def containsKey {α β : Type} [DecidableEq α] (l : List (α × β)) (k : α) : Bool :=
  (lookupKey l k).isSome

/-- Replace the binding of `k` (first occurrence) or append it, mirroring
Python `d[k] = v`. -/
def setKey {α β : Type} [DecidableEq α] : List (α × β) → α → β → List (α × β)
  | [], k, v => [(k, v)]
  | kv :: rest, k, v => if kv.1 = k then (k, v) :: rest else kv :: setKey rest k v

/-- Remove the binding of `k` (first occurrence), mirroring Python `del d[k]`. -/
def eraseKey {α β : Type} [DecidableEq α] : List (α × β) → α → List (α × β)
  | [], _ => []
  | kv :: rest, k => if kv.1 = k then rest else kv :: eraseKey rest k

/-! ### Event-type constants

Modelled from the spec: `ParadoxTrading/Engine/Event.py` is not under
`src/`; the spec gives `signal_kind ∈ {LONG, SHORT}`,
`action ∈ {OPEN, CLOSE}`, `direction ∈ {BUY, SELL}`,
`order_kind ∈ {MARKET, LIMIT}` as integer constants of which the code only
uses distinctness within each enumeration. -/

def SignalType.LONG : Int := 1

def SignalType.SHORT : Int := 2

def ActionType.OPEN : Int := 1

def ActionType.CLOSE : Int := 2

def DirectionType.BUY : Int := 1

def DirectionType.SELL : Int := 2

def OrderType.MARKET : Int := 1

def OrderType.LIMIT : Int := 2

/-- Modelled from the spec: the `OrderEvent` constructor
(`ParadoxTrading/Engine/Event.py`, not under `src/`) gives `quantity` a
default value; the spec fixes the bar-limit policy's quantity at 1, and the
manager validates `quantity > 0`, so the default is 1. -/
def orderEventDefaultQuantity : Int := 1

/-! ### Event records -/

/-- `SignalEvent` of Event.py: the fields the portfolio code reads. -/
structure SignalEvent where
  strategy_name : String
  instrument : String
  signal_type : Int
  tradingday : Nat
  datetime : Nat
deriving DecidableEq, Repr

/-- `OrderEvent` of Event.py after `dealSignal` finished assigning its
fields.  `price` is `none` exactly when the Python attribute is `None`. -/
structure OrderEvent where
  index : Int
  instrument : String
  tradingday : Nat
  datetime : Nat
  order_type : Int
  action : Int
  direction : Int
  quantity : Int
  price : Option Int
deriving DecidableEq, Repr

/-- `FillEvent` of Event.py: the fields the portfolio code reads. -/
structure FillEvent where
  index : Int
  instrument : String
  action : Int
  direction : Int
  quantity : Int
  tradingday : Nat
  datetime : Nat
deriving DecidableEq, Repr

/-- The inner dict `{SignalType.LONG: …, SignalType.SHORT: …}` stored per
instrument in `PortfolioPerStrategy.position`. -/
structure PositionRec where
  long : Int
  short : Int
deriving DecidableEq, Repr

/-- Read field `_type` of a position record (`p[_type]`); call sites are
guarded by `assert _type == LONG or _type == SHORT`. -/
def posGet (p : PositionRec) (ty : Int) : Int :=
  if ty = SignalType.LONG then p.long
  else if ty = SignalType.SHORT then p.short
  else 0

/-- Write field `_type` of a position record (`p[_type] = v`); call sites
are guarded by `assert _type == LONG or _type == SHORT`. -/
def posSet (p : PositionRec) (ty : Int) (v : Int) : PositionRec :=
  if ty = SignalType.LONG then { p with long := v }
  else if ty = SignalType.SHORT then { p with short := v }
  else p

/-- The failure kinds: Python `assert` failures and `raise Exception(…)`
sites, named as in the spec (§7). -/
inductive PError where
  | InsufficientPosition
  | UnknownOrder
  | DuplicateOrderIndex
  | InvalidEvent
  | UnknownStrategy
  | BadQuantity
  | BadSide
  | InvalidOrder
  | MissingData
  | DuplicateStrategy
deriving DecidableEq, Repr

/-! ### PortfolioPerStrategy (Portfolio.py lines 14-201) -/

/-- State of `PortfolioPerStrategy.__init__` (Portfolio.py lines 15-23). -/
structure PortfolioPerStrategy where
  signal_record : List SignalEvent
  order_record : List OrderEvent
  fill_record : List FillEvent
  position : List (String × PositionRec)
  unfilled_order : List (Int × OrderEvent)
deriving DecidableEq, Repr

/-- The freshly constructed book: every container empty. -/
def emptyPortfolio : PortfolioPerStrategy :=
  { signal_record := [], order_record := [], fill_record := [],
    position := [], unfilled_order := [] }

/-- `PortfolioPerStrategy.incPosition` (lines 25-45): asserts the side and
`quantity > 0`, then adds to the existing record, or creates
`{LONG: 0, SHORT: 0}` and sets the side on `KeyError`.  All checks precede
any mutation, so an error leaves the book unchanged. -/
def incPosition (b : PortfolioPerStrategy) (instr : String) (ty : Int)
    (qty : Int) : PortfolioPerStrategy × Option PError :=
  if ¬(ty = SignalType.LONG ∨ ty = SignalType.SHORT) then (b, some .BadSide)
  else if qty ≤ 0 then (b, some .BadQuantity)
  else
    match lookupKey b.position instr with
    | some p =>
      ({ b with position := setKey b.position instr (posSet p ty (posGet p ty + qty)) },
       none)
    | none =>
      ({ b with position :=
          setKey b.position instr (posSet { long := 0, short := 0 } ty qty) },
       none)

/-- `PortfolioPerStrategy.decPosition` (lines 47-61): asserts the side,
`quantity > 0`, that the instrument has a record, and that the side holds at
least `quantity`, then subtracts.  (The final `assert ≥ 0` of the source is
implied by the preceding check.)  All checks precede the mutation, so an
error leaves the book unchanged. -/
def decPosition (b : PortfolioPerStrategy) (instr : String) (ty : Int)
    (qty : Int) : PortfolioPerStrategy × Option PError :=
  if ¬(ty = SignalType.LONG ∨ ty = SignalType.SHORT) then (b, some .BadSide)
  else if qty ≤ 0 then (b, some .BadQuantity)
  else
    match lookupKey b.position instr with
    | none => (b, some .InsufficientPosition)
    | some p =>
      if qty ≤ posGet p ty then
        ({ b with position := setKey b.position instr (posSet p ty (posGet p ty - qty)) },
         none)
      else (b, some .InsufficientPosition)

/-- `PortfolioPerStrategy.getPosition` (lines 63-74): stored value, or 0 if
the instrument is absent. -/
def getPosition (b : PortfolioPerStrategy) (instr : String) (ty : Int) : Int :=
  match lookupKey b.position instr with
  | some p => posGet p ty
  | none => 0

/-- `getLongPosition` (lines 76-83). -/
def getLongPosition (b : PortfolioPerStrategy) (instr : String) : Int :=
  getPosition b instr SignalType.LONG

/-- `getShortPosition` (lines 85-92). -/
def getShortPosition (b : PortfolioPerStrategy) (instr : String) : Int :=
  getPosition b instr SignalType.SHORT

/-- `getUnfilledOrder` (lines 94-110): sum of quantities of outstanding
orders matching instrument, action and direction. -/
def getUnfilledOrder (b : PortfolioPerStrategy) (instr : String)
    (action direction : Int) : Int :=
  b.unfilled_order.foldl
    (fun num kv =>
      if kv.2.instrument = instr ∧ kv.2.action = action ∧ kv.2.direction = direction
      then num + kv.2.quantity else num)
    0

/-- `getOpenBuyUnfilledOrder` (lines 112-120). -/
def getOpenBuyUnfilledOrder (b : PortfolioPerStrategy) (instr : String) : Int :=
  getUnfilledOrder b instr ActionType.OPEN DirectionType.BUY

/-- `getOpenSellUnfilledOrder` (lines 122-130). -/
def getOpenSellUnfilledOrder (b : PortfolioPerStrategy) (instr : String) : Int :=
  getUnfilledOrder b instr ActionType.OPEN DirectionType.SELL

/-- `getCloseBuyUnfilledOrder` (lines 132-140). -/
def getCloseBuyUnfilledOrder (b : PortfolioPerStrategy) (instr : String) : Int :=
  getUnfilledOrder b instr ActionType.CLOSE DirectionType.BUY

/-- `getCloseSellUnfilledOrder` (lines 142-150). -/
def getCloseSellUnfilledOrder (b : PortfolioPerStrategy) (instr : String) : Int :=
  getUnfilledOrder b instr ActionType.CLOSE DirectionType.SELL

/-- `dealSignalEvent` (lines 152-159): append to the signal history. -/
def dealSignalEvent (b : PortfolioPerStrategy) (s : SignalEvent) :
    PortfolioPerStrategy :=
  { b with signal_record := b.signal_record ++ [s] }

/-- `dealOrderEvent` (lines 161-170): assert the index is not outstanding,
append to the order history and insert into the outstanding set. -/
def dealOrderEvent (b : PortfolioPerStrategy) (o : OrderEvent) :
    PortfolioPerStrategy × Option PError :=
  if containsKey b.unfilled_order o.index then (b, some .DuplicateOrderIndex)
  else
    ({ b with order_record := b.order_record ++ [o],
              unfilled_order := setKey b.unfilled_order o.index o },
     none)

/-- `dealFillEvent` (lines 172-201): assert the index is outstanding, append
to the fill history, delete the index, then reconcile the position; an
unknown action or direction raises (`InvalidEvent`).  The append and the
delete happen before reconciliation, so a reconciliation failure leaves them
in place. -/
def dealFillEvent (b : PortfolioPerStrategy) (f : FillEvent) :
    PortfolioPerStrategy × Option PError :=
  if containsKey b.unfilled_order f.index then
    let b1 : PortfolioPerStrategy :=
      { b with fill_record := b.fill_record ++ [f],
               unfilled_order := eraseKey b.unfilled_order f.index }
    if f.action = ActionType.OPEN then
      if f.direction = DirectionType.BUY then
        incPosition b1 f.instrument SignalType.LONG f.quantity
      else if f.direction = DirectionType.SELL then
        incPosition b1 f.instrument SignalType.SHORT f.quantity
      else (b1, some .InvalidEvent)
    else if f.action = ActionType.CLOSE then
      if f.direction = DirectionType.BUY then
        decPosition b1 f.instrument SignalType.SHORT f.quantity
      else if f.direction = DirectionType.SELL then
        decPosition b1 f.instrument SignalType.LONG f.quantity
      else (b1, some .InvalidEvent)
    else (b1, some .InvalidEvent)
  else (b, some .UnknownOrder)

/-! ### PortfolioAbstract (Portfolio.py lines 265-382) -/

/-- The engine collaborator's operations consumed by the portfolio
(`getTradingDay`, `getCurDatetime`, `getInstrumentData(…).getColumn(…)`);
the column is the list of historical values, latest last. -/
structure EngineEnv where
  tradingday : Nat
  cur_datetime : Nat
  market_data : String → String → List Int

/-- State of `PortfolioAbstract.__init__` (lines 266-274): the global order
index counter, the index-to-strategy routing map and the per-strategy
books.  (`global_portfolio` is never touched by the subclasses' event
handling and is omitted.) -/
structure PortfolioState where
  order_index : Int
  order_strategy_dict : List (Int × String)
  strategy_portfolio_dict : List (String × PortfolioPerStrategy)
deriving DecidableEq, Repr

/-- `PortfolioAbstract.addStrategy` (lines 276-278): assert the name is
fresh, then create an empty book for it. -/
def addStrategy (st : PortfolioState) (name : String) :
    Except PError PortfolioState :=
  if containsKey st.strategy_portfolio_dict name then .error .DuplicateStrategy
  else .ok { st with strategy_portfolio_dict :=
               setKey st.strategy_portfolio_dict name emptyPortfolio }

/-- `PortfolioAbstract.incOrderIndex` (lines 290-298): return the current
counter value and increment the counter. -/
def incOrderIndex (st : PortfolioState) : Int × PortfolioState :=
  (st.order_index, { st with order_index := st.order_index + 1 })

/-- `PortfolioAbstract.addEvent` (lines 300-320): validate the finished
order (`quantity > 0`; a LIMIT order carries a price), record the
index-to-strategy mapping and hand the order to the engine's queue (the
handed-over order is the `OrderEvent` the caller returns). -/
def addEvent (st : PortfolioState) (o : OrderEvent) (strategy : String) :
    Except PError PortfolioState :=
  if o.quantity ≤ 0 then .error .InvalidOrder
  else if o.order_type = OrderType.LIMIT ∧ o.price = none then .error .InvalidOrder
  else .ok { st with order_strategy_dict := setKey st.order_strategy_dict o.index strategy }

/-- The tail shared by both `dealSignal` variants (lines 426-429 and
474-477): `portfolio.dealSignalEvent`, `portfolio.dealOrderEvent`
(re-inserting the mutated book), then `self.addEvent`.  The emitted order is
returned alongside the new manager state. -/
def finishSignal (st : PortfolioState) (book : PortfolioPerStrategy)
    (ev : SignalEvent) (o : OrderEvent) :
    Except PError (PortfolioState × OrderEvent) :=
  let book1 := dealSignalEvent book ev
  match dealOrderEvent book1 o with
  | (_, some e) => .error e
  | (book2, none) =>
    let st2 := { st with strategy_portfolio_dict :=
                   setKey st.strategy_portfolio_dict ev.strategy_name book2 }
    match addEvent st2 o ev.strategy_name with
    | .error e => .error e
    | .ok st3 => .ok (st3, o)

/-! ### SimpleTickPortfolio (Portfolio.py lines 385-432) -/

/-- `SimpleTickPortfolio.dealSignal` (lines 389-429): look the book up, draw
a fresh index, build a MARKET order whose action compares the closable
position against the matching unfilled close orders, then record and emit
it.  A `signal_type` outside LONG/SHORT raises (`InvalidEvent`). -/
def SimpleTickPortfolio.dealSignal (env : EngineEnv) (st : PortfolioState)
    (ev : SignalEvent) : Except PError (PortfolioState × OrderEvent) :=
  match lookupKey st.strategy_portfolio_dict ev.strategy_name with
  | none => .error .UnknownStrategy
  | some portfolio =>
    let idx := (incOrderIndex st).1
    let st1 := (incOrderIndex st).2
    if ev.signal_type = SignalType.LONG then
      finishSignal st1 portfolio ev
        { index := idx, instrument := ev.instrument,
          tradingday := env.tradingday, datetime := env.cur_datetime,
          order_type := OrderType.MARKET,
          action :=
            if 0 < getShortPosition portfolio ev.instrument -
                getCloseBuyUnfilledOrder portfolio ev.instrument
            then ActionType.CLOSE else ActionType.OPEN,
          direction := DirectionType.BUY, quantity := 1, price := none }
    else if ev.signal_type = SignalType.SHORT then
      finishSignal st1 portfolio ev
        { index := idx, instrument := ev.instrument,
          tradingday := env.tradingday, datetime := env.cur_datetime,
          order_type := OrderType.MARKET,
          action :=
            if 0 < getLongPosition portfolio ev.instrument -
                getCloseSellUnfilledOrder portfolio ev.instrument
            then ActionType.CLOSE else ActionType.OPEN,
          direction := DirectionType.SELL, quantity := 1, price := none }
    else .error .InvalidEvent

/-- `SimpleTickPortfolio.dealFill` (lines 431-432): route the fill to the
owning book via the index-to-strategy map and reconcile it there. -/
def SimpleTickPortfolio.dealFill (st : PortfolioState) (f : FillEvent) :
    Except PError (PortfolioState × Option PError) :=
  match lookupKey st.order_strategy_dict f.index with
  | none => .error .UnknownOrder
  | some name =>
    match lookupKey st.strategy_portfolio_dict name with
    | none => .error .UnknownStrategy
    | some book =>
      let r := dealFillEvent book f
      .ok ({ st with strategy_portfolio_dict :=
               setKey st.strategy_portfolio_dict name r.1 }, r.2)

/-! ### SimpleBarPortfolio (Portfolio.py lines 435-480) -/

/-- State of `SimpleBarPortfolio`: the inherited manager state plus the
configured price field name. -/
structure SimpleBarPortfolio where
  base : PortfolioState
  price_index : String
deriving DecidableEq, Repr

/-- `SimpleBarPortfolio.__init__` (lines 436-439): the price field defaults
to the closing price column. -/
def mkSimpleBarPortfolio (st : PortfolioState) : SimpleBarPortfolio :=
  { base := st, price_index := "closeprice" }

/-- `SimpleBarPortfolio.setPriceIndex` (lines 441-442). -/
def setPriceIndex (bp : SimpleBarPortfolio) (idx : String) : SimpleBarPortfolio :=
  { bp with price_index := idx }

/-- `SimpleBarPortfolio.dealSignal` (lines 444-477): like the tick variant
but with a LIMIT order priced at the last value of the configured column;
the quantity is never assigned and keeps the constructor default.  Note the
source's decision rule here: the LONG branch compares the SHORT position
against CLOSE/SELL unfilled orders and the SHORT branch compares the SHORT
position against CLOSE/BUY unfilled orders (lines 455-456 and 462-463).
An empty price column (Python `IndexError` on `[-1]`) is `MissingData`. -/
def SimpleBarPortfolio.dealSignal (env : EngineEnv) (bp : SimpleBarPortfolio)
    (ev : SignalEvent) : Except PError (SimpleBarPortfolio × OrderEvent) :=
  match lookupKey bp.base.strategy_portfolio_dict ev.strategy_name with
  | none => .error .UnknownStrategy
  | some portfolio =>
    let idx := (incOrderIndex bp.base).1
    let st1 := (incOrderIndex bp.base).2
    let mkOrder : Int → Int → OrderEvent := fun action direction =>
      { index := idx, instrument := ev.instrument,
        tradingday := env.tradingday, datetime := env.cur_datetime,
        order_type := OrderType.LIMIT, action := action,
        direction := direction, quantity := orderEventDefaultQuantity,
        price := none }
    let withAD : Except PError OrderEvent :=
      if ev.signal_type = SignalType.LONG then
        .ok (mkOrder
          (if 0 < getShortPosition portfolio ev.instrument -
              getCloseSellUnfilledOrder portfolio ev.instrument
           then ActionType.CLOSE else ActionType.OPEN)
          DirectionType.BUY)
      else if ev.signal_type = SignalType.SHORT then
        .ok (mkOrder
          (if 0 < getShortPosition portfolio ev.instrument -
              getCloseBuyUnfilledOrder portfolio ev.instrument
           then ActionType.CLOSE else ActionType.OPEN)
          DirectionType.SELL)
      else .error .InvalidEvent
    match withAD with
    | .error e => .error e
    | .ok o =>
      match (env.market_data ev.instrument bp.price_index).getLast? with
      | none => .error .MissingData
      | some v =>
        match finishSignal st1 portfolio ev { o with price := some v } with
        | .error e => .error e
        | .ok (st3, o3) => .ok ({ bp with base := st3 }, o3)

/-- `SimpleBarPortfolio.dealFill` (lines 479-480): identical routing to the
tick variant's. -/
def SimpleBarPortfolio.dealFill (bp : SimpleBarPortfolio) (f : FillEvent) :
    Except PError (SimpleBarPortfolio × Option PError) :=
  match SimpleTickPortfolio.dealFill bp.base f with
  | .error e => .error e
  | .ok (st, r) => .ok ({ bp with base := st }, r)

/-! ### Event sequences against one book -/

/-- An event delivered to a per-strategy book: a signal, an order or a
fill. -/
inductive BEvent where
  | sig (s : SignalEvent)
  | ord (o : OrderEvent)
  | fill (f : FillEvent)
deriving DecidableEq, Repr

/-- Dispatch one event to the matching `deal…Event` handler of the book. -/
def dealEvent (b : PortfolioPerStrategy) (e : BEvent) :
    PortfolioPerStrategy × Option PError :=
  match e with
  | .sig s => (dealSignalEvent b s, none)
  | .ord o => dealOrderEvent b o
  | .fill f => dealFillEvent b f

/-- Process a sequence of events, succeeding only when every event is
handled without error (a valid sequence in the sense of the spec). -/
def processValid (b : PortfolioPerStrategy) : List BEvent →
    Option PortfolioPerStrategy
  | [] => some b
  | e :: es =>
    match dealEvent b e with
    | (b1, none) => processValid b1 es
    | (_, some _) => none

/-- Every recorded position has both sides nonnegative. -/
def nonnegBook (b : PortfolioPerStrategy) : Prop :=
  ∀ kv ∈ b.position, 0 ≤ kv.2.long ∧ 0 ≤ kv.2.short

instance (b : PortfolioPerStrategy) : Decidable (nonnegBook b) :=
  List.decidableBAll _ b.position

/-- The list of indices returned by `n` successive `incOrderIndex` calls
starting from manager state `st`. -/
def runAllocOrderIndex : Nat → PortfolioState → List Int
  | 0, _ => []
  | n + 1, st => (incOrderIndex st).1 :: runAllocOrderIndex n (incOrderIndex st).2

/-! ### Association-list lemmas -/

theorem lookupKey_setKey_self {α β : Type} [DecidableEq α]
    (l : List (α × β)) (k : α) (v : β) : lookupKey (setKey l k v) k = some v := by
  induction l with
  | nil => simp [setKey, lookupKey]
  | cons kv rest ih =>
    by_cases h : kv.1 = k
    · simp [setKey, lookupKey, h]
    · simp [setKey, lookupKey, h, ih]

theorem lookupKey_setKey_ne {α β : Type} [DecidableEq α]
    (l : List (α × β)) (k j : α) (v : β) (h : j ≠ k) :
    lookupKey (setKey l k v) j = lookupKey l j := by
  have hkj : ¬(k = j) := fun hh => h hh.symm
  induction l with
  | nil => simp [setKey, lookupKey, hkj]
  | cons kv rest ih =>
    by_cases hk : kv.1 = k
    · simp [setKey, lookupKey, hk, hkj]
    · simp [setKey, lookupKey, hk, ih]

theorem lookupKey_mem {α β : Type} [DecidableEq α]
    {l : List (α × β)} {k : α} {v : β} (h : lookupKey l k = some v) :
    (k, v) ∈ l := by
  induction l with
  | nil => simp [lookupKey] at h
  | cons kv rest ih =>
    by_cases hk : kv.1 = k
    · simp [lookupKey, hk] at h
      subst hk
      subst h
      exact List.mem_cons_self _ _
    · simp [lookupKey, hk] at h
      exact List.mem_cons_of_mem _ (ih h)

theorem mem_setKey {α β : Type} [DecidableEq α]
    {l : List (α × β)} {k : α} {v : β} {kv : α × β}
    (h : kv ∈ setKey l k v) : kv ∈ l ∨ kv = (k, v) := by
  induction l with
  | nil => simp [setKey] at h; simp [h]
  | cons hd rest ih =>
    by_cases hk : hd.1 = k
    · simp [setKey, hk] at h
      rcases h with h | h
      · right; exact h
      · left; exact List.mem_cons_of_mem _ h
    · simp [setKey, hk] at h
      rcases h with h | h
      · left; simp [h]
      · rcases ih h with h2 | h2
        · left; exact List.mem_cons_of_mem _ h2
        · right; exact h2

theorem containsKey_iff_mem {α β : Type} [DecidableEq α]
    (l : List (α × β)) (k : α) :
    containsKey l k = true ↔ k ∈ l.map Prod.fst := by
  induction l with
  | nil => simp [containsKey, lookupKey]
  | cons kv rest ih =>
    by_cases hk : kv.1 = k
    · simp [containsKey, lookupKey, hk]
    · simp only [containsKey, lookupKey, hk, if_false, List.map_cons,
        List.mem_cons] at ih ⊢
      rw [ih]
      constructor
      · exact Or.inr
      · rintro (h | h)
        · exact absurd h.symm hk
        · exact h

theorem containsKey_eraseKey {α β : Type} [DecidableEq α]
    (l : List (α × β)) (k j : α) (hnd : (l.map Prod.fst).Nodup) :
    containsKey (eraseKey l k) j = true ↔
      containsKey l j = true ∧ j ≠ k := by
  induction l with
  | nil => simp [eraseKey, containsKey, lookupKey]
  | cons kv rest ih =>
    simp only [List.map_cons, List.nodup_cons] at hnd
    by_cases hk : kv.1 = k
    · subst hk
      simp only [eraseKey, if_pos rfl]
      rw [containsKey_iff_mem, containsKey_iff_mem]
      simp only [List.map_cons, List.mem_cons]
      constructor
      · intro h
        refine ⟨Or.inr h, ?_⟩
        intro hj
        exact hnd.1 (hj ▸ h)
      · rintro ⟨h | h, hne⟩
        · exact absurd h hne
        · exact h
    · simp only [eraseKey, if_neg hk]
      rw [containsKey_iff_mem, containsKey_iff_mem]
      simp only [List.map_cons, List.mem_cons]
      rw [← containsKey_iff_mem, ih hnd.2, containsKey_iff_mem]
      constructor
      · rintro (h | ⟨h, hne⟩)
        · exact ⟨Or.inl h, fun hjk => hk (by rw [← h, hjk])⟩
        · exact ⟨Or.inr h, hne⟩
      · rintro ⟨h | h, hne⟩
        · exact Or.inl h
        · exact Or.inr ⟨h, hne⟩

/-! ### Position-operation lemmas -/

theorem posGet_posSet_self (p : PositionRec) (ty v : Int)
    (hty : ty = SignalType.LONG ∨ ty = SignalType.SHORT) :
    posGet (posSet p ty v) ty = v := by
  rcases hty with h | h <;>
    simp [posGet, posSet, h, SignalType.LONG, SignalType.SHORT]

theorem incPosition_of_pos (b : PortfolioPerStrategy) (instr : String)
    (ty qty : Int) (hty : ty = SignalType.LONG ∨ ty = SignalType.SHORT)
    (hq : 0 < qty) :
    (incPosition b instr ty qty).2 = none ∧
      getPosition (incPosition b instr ty qty).1 instr ty =
        getPosition b instr ty + qty := by
  have hq2 : ¬(qty ≤ 0) := not_le.mpr hq
  have hty2 : ¬¬(ty = SignalType.LONG ∨ ty = SignalType.SHORT) :=
    not_not_intro hty
  cases hl : lookupKey b.position instr with
  | some p =>
    simp only [incPosition, hl, if_neg hty2, if_neg hq2]
    refine ⟨trivial, ?_⟩
    simp [getPosition, lookupKey_setKey_self, hl, posGet_posSet_self _ _ _ hty]
  | none =>
    simp only [incPosition, hl, if_neg hty2, if_neg hq2]
    refine ⟨trivial, ?_⟩
    simp [getPosition, lookupKey_setKey_self, hl, posGet_posSet_self _ _ _ hty]

theorem decPosition_of_le (b : PortfolioPerStrategy) (instr : String)
    (ty qty : Int) (hty : ty = SignalType.LONG ∨ ty = SignalType.SHORT)
    (hq : 0 < qty) (hle : qty ≤ getPosition b instr ty) :
    (decPosition b instr ty qty).2 = none ∧
      getPosition (decPosition b instr ty qty).1 instr ty =
        getPosition b instr ty - qty := by
  have hq2 : ¬(qty ≤ 0) := not_le.mpr hq
  have hty2 : ¬¬(ty = SignalType.LONG ∨ ty = SignalType.SHORT) :=
    not_not_intro hty
  cases hl : lookupKey b.position instr with
  | some p =>
    have hpg : getPosition b instr ty = posGet p ty := by
      simp [getPosition, hl]
    have hle2 : qty ≤ posGet p ty := hpg ▸ hle
    simp only [decPosition, hl, if_neg hty2, if_neg hq2, if_pos hle2]
    refine ⟨trivial, ?_⟩
    simp [getPosition, lookupKey_setKey_self, hl, posGet_posSet_self _ _ _ hty]
  | none =>
    exfalso
    have hz : getPosition b instr ty = 0 := by simp [getPosition, hl]
    rw [hz] at hle
    exact absurd (lt_of_lt_of_le hq hle) (lt_irrefl 0)

theorem decPosition_of_lt (b : PortfolioPerStrategy) (instr : String)
    (ty qty : Int) (hty : ty = SignalType.LONG ∨ ty = SignalType.SHORT)
    (hq : 0 < qty) (hlt : getPosition b instr ty < qty) :
    decPosition b instr ty qty = (b, some PError.InsufficientPosition) := by
  have hq2 : ¬(qty ≤ 0) := not_le.mpr hq
  have hty2 : ¬¬(ty = SignalType.LONG ∨ ty = SignalType.SHORT) :=
    not_not_intro hty
  cases hl : lookupKey b.position instr with
  | some p =>
    have hpg : getPosition b instr ty = posGet p ty := by
      simp [getPosition, hl]
    have hlt2 : posGet p ty < qty := hpg ▸ hlt
    simp only [decPosition, hl, if_neg hty2, if_neg hq2,
      if_neg (not_le.mpr hlt2)]
  | none =>
    simp only [decPosition, hl, if_neg hty2, if_neg hq2]

theorem incPosition_fill_record (b : PortfolioPerStrategy) (instr : String)
    (ty qty : Int) : (incPosition b instr ty qty).1.fill_record = b.fill_record := by
  unfold incPosition
  split
  · rfl
  · split
    · rfl
    · split <;> rfl

theorem incPosition_unfilled (b : PortfolioPerStrategy) (instr : String)
    (ty qty : Int) :
    (incPosition b instr ty qty).1.unfilled_order = b.unfilled_order := by
  unfold incPosition
  split
  · rfl
  · split
    · rfl
    · split <;> rfl

theorem decPosition_fill_record (b : PortfolioPerStrategy) (instr : String)
    (ty qty : Int) : (decPosition b instr ty qty).1.fill_record = b.fill_record := by
  unfold decPosition
  split
  · rfl
  · split
    · rfl
    · split
      · rfl
      · split <;> rfl

theorem decPosition_unfilled (b : PortfolioPerStrategy) (instr : String)
    (ty qty : Int) :
    (decPosition b instr ty qty).1.unfilled_order = b.unfilled_order := by
  unfold decPosition
  split
  · rfl
  · split
    · rfl
    · split
      · rfl
      · split <;> rfl

theorem dealFillEvent_fill_record (b : PortfolioPerStrategy) (f : FillEvent)
    (h : containsKey b.unfilled_order f.index = true) :
    (dealFillEvent b f).1.fill_record = b.fill_record ++ [f] := by
  simp only [dealFillEvent, h, if_true]
  split
  · split
    · exact incPosition_fill_record _ _ _ _
    · split
      · exact incPosition_fill_record _ _ _ _
      · rfl
  · split
    · split
      · exact decPosition_fill_record _ _ _ _
      · split
        · exact decPosition_fill_record _ _ _ _
        · rfl
    · rfl

theorem dealFillEvent_unfilled (b : PortfolioPerStrategy) (f : FillEvent)
    (h : containsKey b.unfilled_order f.index = true) :
    (dealFillEvent b f).1.unfilled_order = eraseKey b.unfilled_order f.index := by
  simp only [dealFillEvent, h, if_true]
  split
  · split
    · exact incPosition_unfilled _ _ _ _
    · split
      · exact incPosition_unfilled _ _ _ _
      · rfl
  · split
    · split
      · exact decPosition_unfilled _ _ _ _
      · split
        · exact decPosition_unfilled _ _ _ _
        · rfl
    · rfl

/-! ### Nonnegativity preservation -/

theorem posGet_nonneg (p : PositionRec) (ty : Int)
    (hty : ty = SignalType.LONG ∨ ty = SignalType.SHORT)
    (hp : 0 ≤ p.long ∧ 0 ≤ p.short) : 0 ≤ posGet p ty := by
  rcases hty with h | h <;>
    simp [posGet, h, SignalType.LONG, SignalType.SHORT, hp.1, hp.2]

theorem posSet_nonneg (p : PositionRec) (ty v : Int)
    (hty : ty = SignalType.LONG ∨ ty = SignalType.SHORT)
    (hp : 0 ≤ p.long ∧ 0 ≤ p.short) (hv : 0 ≤ v) :
    0 ≤ (posSet p ty v).long ∧ 0 ≤ (posSet p ty v).short := by
  rcases hty with h | h <;>
    simp [posSet, h, SignalType.LONG, SignalType.SHORT, hv, hp.1, hp.2]

theorem nonnegBook_incPosition (b : PortfolioPerStrategy) (instr : String)
    (ty qty : Int) (hb : nonnegBook b)
    (h : (incPosition b instr ty qty).2 = none) :
    nonnegBook (incPosition b instr ty qty).1 := by
  by_cases hty : ty = SignalType.LONG ∨ ty = SignalType.SHORT
  · by_cases hq : qty ≤ 0
    · simp [incPosition, not_not_intro hty, hq] at h
    · have hq2 : (0 : Int) ≤ qty := le_of_lt (not_le.mp hq)
      cases hl : lookupKey b.position instr with
      | some p =>
        have hpmem := lookupKey_mem hl
        have hpn := hb _ hpmem
        intro kv hkv
        simp only [incPosition, hl, if_neg (not_not_intro hty), if_neg hq] at hkv
        rcases mem_setKey hkv with hm | hm
        · exact hb _ hm
        · subst hm
          exact posSet_nonneg _ _ _ hty hpn
            (add_nonneg (posGet_nonneg _ _ hty hpn) hq2)
      | none =>
        intro kv hkv
        simp only [incPosition, hl, if_neg (not_not_intro hty), if_neg hq] at hkv
        rcases mem_setKey hkv with hm | hm
        · exact hb _ hm
        · subst hm
          exact posSet_nonneg _ _ _ hty (by constructor <;> simp) hq2
  · simp [incPosition, hty] at h

theorem nonnegBook_decPosition (b : PortfolioPerStrategy) (instr : String)
    (ty qty : Int) (hb : nonnegBook b)
    (h : (decPosition b instr ty qty).2 = none) :
    nonnegBook (decPosition b instr ty qty).1 := by
  by_cases hty : ty = SignalType.LONG ∨ ty = SignalType.SHORT
  · by_cases hq : qty ≤ 0
    · simp [decPosition, not_not_intro hty, hq] at h
    · cases hl : lookupKey b.position instr with
      | some p =>
        have hpmem := lookupKey_mem hl
        have hpn := hb _ hpmem
        by_cases hle : qty ≤ posGet p ty
        · intro kv hkv
          simp only [decPosition, hl, if_neg (not_not_intro hty), if_neg hq,
            if_pos hle] at hkv
          rcases mem_setKey hkv with hm | hm
          · exact hb _ hm
          · subst hm
            exact posSet_nonneg _ _ _ hty hpn (sub_nonneg.mpr hle)
        · simp [decPosition, hl, not_not_intro hty, hq, hle] at h
      | none =>
        simp [decPosition, hl, not_not_intro hty, hq] at h
  · simp [decPosition, hty] at h

theorem nonnegBook_dealEvent (b b1 : PortfolioPerStrategy) (e : BEvent)
    (hb : nonnegBook b) (h : dealEvent b e = (b1, none)) : nonnegBook b1 := by
  cases e with
  | sig s =>
    simp only [dealEvent] at h
    have hb1 : b1 = dealSignalEvent b s := by
      have := congrArg Prod.fst h
      simp at this
      exact this.symm
    subst hb1
    intro kv hkv
    exact hb _ hkv
  | ord o =>
    simp only [dealEvent, dealOrderEvent] at h
    by_cases hc : containsKey b.unfilled_order o.index
    · rw [if_pos hc] at h
      simp at h
    · rw [if_neg hc] at h
      have hb1 := congrArg Prod.fst h
      simp at hb1
      subst hb1
      intro kv hkv
      exact hb _ hkv
  | fill f =>
    simp only [dealEvent, dealFillEvent] at h
    by_cases hc : containsKey b.unfilled_order f.index
    · rw [if_pos hc] at h
      have hb1nn : nonnegBook
          { b with fill_record := b.fill_record ++ [f],
                   unfilled_order := eraseKey b.unfilled_order f.index } := by
        intro kv hkv
        exact hb _ hkv
      split at h
      · split at h
        · have h2 := congrArg Prod.snd h
          simp at h2
          have h1 := congrArg Prod.fst h
          simp at h1
          rw [← h1]
          exact nonnegBook_incPosition _ _ _ _ hb1nn h2
        · split at h
          · have h2 := congrArg Prod.snd h
            simp at h2
            have h1 := congrArg Prod.fst h
            simp at h1
            rw [← h1]
            exact nonnegBook_incPosition _ _ _ _ hb1nn h2
          · simp at h
      · split at h
        · split at h
          · have h2 := congrArg Prod.snd h
            simp at h2
            have h1 := congrArg Prod.fst h
            simp at h1
            rw [← h1]
            exact nonnegBook_decPosition _ _ _ _ hb1nn h2
          · split at h
            · have h2 := congrArg Prod.snd h
              simp at h2
              have h1 := congrArg Prod.fst h
              simp at h1
              rw [← h1]
              exact nonnegBook_decPosition _ _ _ _ hb1nn h2
            · simp at h
        · simp at h
    · rw [if_neg hc] at h
      simp at h

theorem nonnegBook_processValid (l : List BEvent)
    (b b2 : PortfolioPerStrategy) (hb : nonnegBook b)
    (h : processValid b l = some b2) : nonnegBook b2 := by
  induction l generalizing b with
  | nil =>
    simp [processValid] at h
    subst h
    exact hb
  | cons e es ih =>
    simp only [processValid] at h
    cases hde : dealEvent b e with
    | mk b1 err =>
      rw [hde] at h
      cases err with
      | none => exact ih b1 (nonnegBook_dealEvent b b1 e hb hde) h
      | some e2 => simp at h

theorem processValid_append (l1 l2 : List BEvent)
    (b b2 : PortfolioPerStrategy)
    (h : processValid b (l1 ++ l2) = some b2) :
    ∃ b1, processValid b l1 = some b1 ∧ processValid b1 l2 = some b2 := by
  induction l1 generalizing b with
  | nil => exact ⟨b, rfl, h⟩
  | cons e es ih =>
    simp only [List.cons_append, processValid] at h ⊢
    cases hde : dealEvent b e with
    | mk b1 err =>
      rw [hde] at h
      cases err with
      | none => exact ih b1 h
      | some e2 => simp at h

theorem nonnegBook_empty : nonnegBook emptyPortfolio := by
  intro kv hkv
  simp [emptyPortfolio] at hkv

/-! ### Order-index allocation lemmas -/

theorem runAllocOrderIndex_lb (n : Nat) (st : PortfolioState) (j : Int)
    (hj : j ∈ runAllocOrderIndex n st) : st.order_index ≤ j := by
  induction n generalizing st with
  | zero => simp [runAllocOrderIndex] at hj
  | succ n ih =>
    simp only [runAllocOrderIndex, List.mem_cons] at hj
    rcases hj with h | h
    · simp [incOrderIndex, h]
    · have h2 := ih _ h
      simp only [incOrderIndex] at h2
      omega

theorem runAllocOrderIndex_pairwise (n : Nat) (st : PortfolioState) :
    (runAllocOrderIndex n st).Pairwise (· < ·) := by
  induction n generalizing st with
  | zero => simp [runAllocOrderIndex]
  | succ n ih =>
    simp only [runAllocOrderIndex]
    refine List.Pairwise.cons ?_ (ih _)
    intro j hj
    have h2 := runAllocOrderIndex_lb n _ j hj
    simp only [incOrderIndex] at h2 ⊢
    omega

/-! ### finishSignal lemma -/

theorem finishSignal_ok (st : PortfolioState) (book : PortfolioPerStrategy)
    (ev : SignalEvent) (o : OrderEvent) (st2 : PortfolioState)
    (o2 : OrderEvent) (h : finishSignal st book ev o = .ok (st2, o2)) :
    o2 = o := by
  simp only [finishSignal] at h
  split at h
  · exact absurd h (by simp)
  · split at h
    · exact absurd h (by simp)
    · injection h with h2
      injection h2 with h3 h4
      exact h4.symm

/-! ### Concrete fixtures used by witnesses and counterexamples -/

/-- An engine environment whose market data always has latest value 101. -/
def envX : EngineEnv :=
  { tradingday := 20170101, cur_datetime := 9,
    market_data := fun _ _ => [100, 101] }

/-- A book holding a short position of 3 on instrument `X`. -/
def bookShortX : PortfolioPerStrategy :=
  { emptyPortfolio with position := [("X", { long := 0, short := 3 })] }

/-- A manager with one strategy `s` whose book is `bookShortX`. -/
def stShortX : PortfolioState :=
  { order_index := 0, order_strategy_dict := [],
    strategy_portfolio_dict := [("s", bookShortX)] }

/-- A book holding a long position of 1 on instrument `X`. -/
def bookLong1X : PortfolioPerStrategy :=
  { emptyPortfolio with position := [("X", { long := 1, short := 0 })] }

/-- A manager with one strategy `s` whose book is `bookLong1X`. -/
def stLong1X : PortfolioState :=
  { order_index := 0, order_strategy_dict := [],
    strategy_portfolio_dict := [("s", bookLong1X)] }

/-- A LONG signal for strategy `s` on instrument `X`. -/
def evLongX : SignalEvent :=
  { strategy_name := "s", instrument := "X",
    signal_type := SignalType.LONG, tradingday := 20170101, datetime := 9 }

/-- A SHORT signal for strategy `s` on instrument `X`. -/
def evShortX : SignalEvent :=
  { strategy_name := "s", instrument := "X",
    signal_type := SignalType.SHORT, tradingday := 20170101, datetime := 9 }

/-- The order index 7 OPEN/BUY quantity-2 order of the spec's scenario. -/
def orderO7 : OrderEvent :=
  { index := 7, instrument := "X", tradingday := 1, datetime := 1,
    order_type := OrderType.MARKET, action := ActionType.OPEN,
    direction := DirectionType.BUY, quantity := 2, price := none }

/-- The matching fill for `orderO7`. -/
def fillF7 : FillEvent :=
  { index := 7, instrument := "X", action := ActionType.OPEN,
    direction := DirectionType.BUY, quantity := 2, tradingday := 1,
    datetime := 1 }

/-- A CLOSE/BUY fill of quantity 5 against order index 7, exceeding any
position held by the empty book. -/
def fillF7Close : FillEvent :=
  { index := 7, instrument := "X", action := ActionType.CLOSE,
    direction := DirectionType.BUY, quantity := 5, tradingday := 1,
    datetime := 1 }

/-! ### Claim theorems -/

/-- C5: for every instrument, side in LONG/SHORT and positive quantity,
`decPosition` fails with InsufficientPosition and leaves the book untouched
whenever the side's current value (0 when the instrument is absent) is
below the quantity, and otherwise subtracts exactly the quantity from that
side. -/
theorem decPosition_insufficient_or_subtract (b : PortfolioPerStrategy)
    (instr : String) (ty qty : Int)
    (hty : ty = SignalType.LONG ∨ ty = SignalType.SHORT) (hq : 0 < qty) :
    (getPosition b instr ty < qty →
      decPosition b instr ty qty = (b, some PError.InsufficientPosition)) ∧
    (qty ≤ getPosition b instr ty →
      (decPosition b instr ty qty).2 = none ∧
        getPosition (decPosition b instr ty qty).1 instr ty =
          getPosition b instr ty - qty) := by
  constructor
  · intro hlt
    exact decPosition_of_lt b instr ty qty hty hq hlt
  · intro hle
    exact decPosition_of_le b instr ty qty hty hq hle

/-- Witness for C5: on a book with long = 1 for `X`, quantity 2 fails with
InsufficientPosition leaving the book unchanged, and quantity 1 succeeds
subtracting exactly 1. -/
theorem decPosition_insufficient_or_subtract_witness :
    ((SignalType.LONG = SignalType.LONG ∨ SignalType.LONG = SignalType.SHORT) ∧
      (0 : Int) < 2 ∧ getPosition bookLong1X "X" SignalType.LONG < 2) ∧
    decPosition bookLong1X "X" SignalType.LONG 2 =
      (bookLong1X, some PError.InsufficientPosition) ∧
    ((0 : Int) < 1 ∧ (1 : Int) ≤ getPosition bookLong1X "X" SignalType.LONG) ∧
    ((decPosition bookLong1X "X" SignalType.LONG 1).2 = none ∧
      getPosition (decPosition bookLong1X "X" SignalType.LONG 1).1 "X"
          SignalType.LONG =
        getPosition bookLong1X "X" SignalType.LONG - 1) :=
  ⟨⟨Or.inl rfl, by decide, by decide⟩,
    (decPosition_insufficient_or_subtract bookLong1X "X" SignalType.LONG 2
      (Or.inl rfl) (by decide)).1 (by decide),
    ⟨by decide, by decide⟩,
    (decPosition_insufficient_or_subtract bookLong1X "X" SignalType.LONG 1
      (Or.inl rfl) (by decide)).2 (by decide)⟩

/-- C6: `dealOrderEvent` fails with DuplicateOrderIndex exactly when the
order's index is already outstanding; otherwise it appends the order to the
order history and inserts it into the outstanding set under its index,
leaving every other index's entry unchanged. -/
theorem dealOrderEvent_duplicate_or_insert (b : PortfolioPerStrategy)
    (o : OrderEvent) :
    (containsKey b.unfilled_order o.index = true →
      dealOrderEvent b o = (b, some PError.DuplicateOrderIndex)) ∧
    (containsKey b.unfilled_order o.index = false →
      (dealOrderEvent b o).2 = none ∧
        (dealOrderEvent b o).1.order_record = b.order_record ++ [o] ∧
        lookupKey (dealOrderEvent b o).1.unfilled_order o.index = some o ∧
        ∀ j, j ≠ o.index →
          lookupKey (dealOrderEvent b o).1.unfilled_order j =
            lookupKey b.unfilled_order j) := by
  constructor
  · intro hc
    simp [dealOrderEvent, hc]
  · intro hc
    refine ⟨?_, ?_, ?_, ?_⟩
    · simp [dealOrderEvent, hc]
    · simp [dealOrderEvent, hc]
    · simp only [dealOrderEvent, hc, Bool.false_eq_true, if_false]
      exact lookupKey_setKey_self _ _ _
    · intro j hj
      simp only [dealOrderEvent, hc, Bool.false_eq_true, if_false]
      exact lookupKey_setKey_ne _ _ _ _ hj

/-- Witness for C6: submitting order 7 to the empty book succeeds and makes
it outstanding; submitting it again to the resulting book fails with
DuplicateOrderIndex. -/
theorem dealOrderEvent_duplicate_or_insert_witness :
    (containsKey emptyPortfolio.unfilled_order orderO7.index = false ∧
      ((dealOrderEvent emptyPortfolio orderO7).2 = none ∧
        (dealOrderEvent emptyPortfolio orderO7).1.order_record =
          emptyPortfolio.order_record ++ [orderO7] ∧
        lookupKey (dealOrderEvent emptyPortfolio orderO7).1.unfilled_order
            orderO7.index = some orderO7 ∧
        ∀ j, j ≠ orderO7.index →
          lookupKey (dealOrderEvent emptyPortfolio orderO7).1.unfilled_order j =
            lookupKey emptyPortfolio.unfilled_order j)) ∧
    (containsKey (dealOrderEvent emptyPortfolio orderO7).1.unfilled_order
        orderO7.index = true ∧
      dealOrderEvent (dealOrderEvent emptyPortfolio orderO7).1 orderO7 =
        ((dealOrderEvent emptyPortfolio orderO7).1,
          some PError.DuplicateOrderIndex)) :=
  ⟨⟨by decide,
    (dealOrderEvent_duplicate_or_insert emptyPortfolio orderO7).2 (by decide)⟩,
   ⟨by decide,
    (dealOrderEvent_duplicate_or_insert (dealOrderEvent emptyPortfolio orderO7).1
      orderO7).1 (by decide)⟩⟩

/-- C7: each `incOrderIndex` call returns the current counter and bumps it
by one, and the indices returned by any finite run of calls are strictly
increasing and pairwise distinct. -/
theorem incOrderIndex_strictly_increasing (n : Nat) (st : PortfolioState) :
    (incOrderIndex st).1 = st.order_index ∧
    (incOrderIndex st).2.order_index = st.order_index + 1 ∧
    (runAllocOrderIndex n st).Pairwise (· < ·) ∧
    (runAllocOrderIndex n st).Nodup :=
  ⟨rfl, rfl, runAllocOrderIndex_pairwise n st,
    (runAllocOrderIndex_pairwise n st).imp (fun h => ne_of_lt h)⟩

/-- C4: on a book whose outstanding set has distinct indices (a Python dict
invariant), `dealFillEvent` fails with UnknownOrder leaving the book
unchanged when the fill's index is not outstanding; when it is outstanding,
the fill is appended to the fill history, that index stops being
outstanding, and every other index's outstanding status is untouched. -/
theorem dealFillEvent_unknown_or_remove (b : PortfolioPerStrategy)
    (f : FillEvent) (hnd : (b.unfilled_order.map Prod.fst).Nodup) :
    (containsKey b.unfilled_order f.index = false →
      dealFillEvent b f = (b, some PError.UnknownOrder)) ∧
    (containsKey b.unfilled_order f.index = true →
      (dealFillEvent b f).1.fill_record = b.fill_record ++ [f] ∧
        containsKey (dealFillEvent b f).1.unfilled_order f.index = false ∧
        ∀ j, j ≠ f.index →
          (containsKey (dealFillEvent b f).1.unfilled_order j = true ↔
            containsKey b.unfilled_order j = true)) := by
  constructor
  · intro hc
    simp [dealFillEvent, hc]
  · intro hc
    refine ⟨dealFillEvent_fill_record b f hc, ?_, ?_⟩
    · rw [dealFillEvent_unfilled b f hc]
      cases hcb : containsKey (eraseKey b.unfilled_order f.index) f.index with
      | false => rfl
      | true =>
        have h2 := (containsKey_eraseKey b.unfilled_order f.index f.index hnd).mp hcb
        exact absurd rfl h2.2
    · intro j hj
      rw [dealFillEvent_unfilled b f hc]
      rw [containsKey_eraseKey b.unfilled_order f.index j hnd]
      constructor
      · exact fun h2 => h2.1
      · exact fun h2 => ⟨h2, hj⟩

/-- Witness for C4: against a book where only index 7 is outstanding, a fill
with index 8 fails with UnknownOrder, and the fill of index 7 appends to
the history and removes exactly index 7. -/
theorem dealFillEvent_unknown_or_remove_witness :
    ((((dealOrderEvent emptyPortfolio orderO7).1.unfilled_order.map
        Prod.fst).Nodup ∧
      containsKey (dealOrderEvent emptyPortfolio orderO7).1.unfilled_order
        (8 : Int) = false) ∧
      dealFillEvent (dealOrderEvent emptyPortfolio orderO7).1
          { fillF7 with index := 8 } =
        ((dealOrderEvent emptyPortfolio orderO7).1, some PError.UnknownOrder)) ∧
    (containsKey (dealOrderEvent emptyPortfolio orderO7).1.unfilled_order
        fillF7.index = true ∧
      ((dealFillEvent (dealOrderEvent emptyPortfolio orderO7).1 fillF7).1.fill_record =
          (dealOrderEvent emptyPortfolio orderO7).1.fill_record ++ [fillF7] ∧
        containsKey
            (dealFillEvent (dealOrderEvent emptyPortfolio orderO7).1 fillF7).1.unfilled_order
            fillF7.index = false ∧
        ∀ j, j ≠ fillF7.index →
          (containsKey
              (dealFillEvent (dealOrderEvent emptyPortfolio orderO7).1 fillF7).1.unfilled_order
              j = true ↔
            containsKey (dealOrderEvent emptyPortfolio orderO7).1.unfilled_order
              j = true))) :=
  ⟨⟨⟨by decide, by decide⟩,
    (dealFillEvent_unknown_or_remove (dealOrderEvent emptyPortfolio orderO7).1
      { fillF7 with index := 8 } (by decide)).1 (by decide)⟩,
   ⟨by decide,
    (dealFillEvent_unknown_or_remove (dealOrderEvent emptyPortfolio orderO7).1
      fillF7 (by decide)).2 (by decide)⟩⟩

/-- C10: when a fill's index is outstanding but reconciliation then fails
(insufficient position on a CLOSE, or an invalid action/direction pair),
the failure leaves behind a changed book: the fill is already appended to
the fill history and its index already removed from the outstanding set. -/
theorem dealFillEvent_mutates_before_failing (b : PortfolioPerStrategy)
    (f : FillEvent) (hnd : (b.unfilled_order.map Prod.fst).Nodup)
    (hout : containsKey b.unfilled_order f.index = true)
    (hfail : (dealFillEvent b f).2.isSome = true) :
    (dealFillEvent b f).1.fill_record = b.fill_record ++ [f] ∧
    containsKey (dealFillEvent b f).1.unfilled_order f.index = false ∧
    (dealFillEvent b f).1 ≠ b := by
  have hfr := dealFillEvent_fill_record b f hout
  refine ⟨hfr, ?_, ?_⟩
  · rw [dealFillEvent_unfilled b f hout]
    cases hcb : containsKey (eraseKey b.unfilled_order f.index) f.index with
    | false => rfl
    | true =>
      have h2 := (containsKey_eraseKey b.unfilled_order f.index f.index hnd).mp hcb
      exact absurd rfl h2.2
  · intro heq
    rw [heq] at hfr
    have : b.fill_record.length = (b.fill_record ++ [f]).length :=
      congrArg List.length hfr
    simp at this

/-- Witness for C10: the CLOSE/BUY fill of quantity 5 against a book with
index 7 outstanding and no position fails, yet the returned book has the
fill recorded and index 7 gone. -/
theorem dealFillEvent_mutates_before_failing_witness :
    ((((dealOrderEvent emptyPortfolio orderO7).1.unfilled_order.map
        Prod.fst).Nodup ∧
      containsKey (dealOrderEvent emptyPortfolio orderO7).1.unfilled_order
        fillF7Close.index = true ∧
      (dealFillEvent (dealOrderEvent emptyPortfolio orderO7).1 fillF7Close).2.isSome =
        true) ∧
      ((dealFillEvent (dealOrderEvent emptyPortfolio orderO7).1 fillF7Close).1.fill_record =
          (dealOrderEvent emptyPortfolio orderO7).1.fill_record ++ [fillF7Close] ∧
        containsKey
            (dealFillEvent (dealOrderEvent emptyPortfolio orderO7).1 fillF7Close).1.unfilled_order
            fillF7Close.index = false ∧
        (dealFillEvent (dealOrderEvent emptyPortfolio orderO7).1 fillF7Close).1 ≠
          (dealOrderEvent emptyPortfolio orderO7).1)) :=
  ⟨⟨by decide, by decide, by decide⟩,
    dealFillEvent_mutates_before_failing (dealOrderEvent emptyPortfolio orderO7).1
      fillF7Close (by decide) (by decide) (by decide)⟩

/-- C3: for a fill whose index is outstanding, position changes per the
reconciliation table — (OPEN, BUY) adds the quantity to the long side,
(OPEN, SELL) to the short side, (CLOSE, BUY) subtracts it from the short
side, (CLOSE, SELL) from the long side — and any other action/direction
combination fails with InvalidEvent. -/
theorem dealFillEvent_reconciliation (b : PortfolioPerStrategy) (f : FillEvent)
    (hout : containsKey b.unfilled_order f.index = true) :
    (f.action = ActionType.OPEN → f.direction = DirectionType.BUY →
      0 < f.quantity →
      getLongPosition (dealFillEvent b f).1 f.instrument =
          getLongPosition b f.instrument + f.quantity ∧
        (dealFillEvent b f).2 = none) ∧
    (f.action = ActionType.OPEN → f.direction = DirectionType.SELL →
      0 < f.quantity →
      getShortPosition (dealFillEvent b f).1 f.instrument =
          getShortPosition b f.instrument + f.quantity ∧
        (dealFillEvent b f).2 = none) ∧
    (f.action = ActionType.CLOSE → f.direction = DirectionType.BUY →
      0 < f.quantity → f.quantity ≤ getShortPosition b f.instrument →
      getShortPosition (dealFillEvent b f).1 f.instrument =
          getShortPosition b f.instrument - f.quantity ∧
        (dealFillEvent b f).2 = none) ∧
    (f.action = ActionType.CLOSE → f.direction = DirectionType.SELL →
      0 < f.quantity → f.quantity ≤ getLongPosition b f.instrument →
      getLongPosition (dealFillEvent b f).1 f.instrument =
          getLongPosition b f.instrument - f.quantity ∧
        (dealFillEvent b f).2 = none) ∧
    ((f.action ≠ ActionType.OPEN ∧ f.action ≠ ActionType.CLOSE) ∨
      (f.direction ≠ DirectionType.BUY ∧ f.direction ≠ DirectionType.SELL) →
      (dealFillEvent b f).2 = some PError.InvalidEvent) := by
  refine ⟨?_, ?_, ?_, ?_, ?_⟩
  · intro ha hd hq
    have hda : dealFillEvent b f =
        incPosition
          { b with fill_record := b.fill_record ++ [f],
                   unfilled_order := eraseKey b.unfilled_order f.index }
          f.instrument SignalType.LONG f.quantity := by
      simp only [dealFillEvent, hout, if_true]
      rw [if_pos ha, if_pos hd]
    have hi := incPosition_of_pos
      { b with fill_record := b.fill_record ++ [f],
               unfilled_order := eraseKey b.unfilled_order f.index }
      f.instrument SignalType.LONG f.quantity (Or.inl rfl) hq
    constructor
    · show getPosition (dealFillEvent b f).1 f.instrument SignalType.LONG =
        getPosition b f.instrument SignalType.LONG + f.quantity
      rw [hda]
      exact hi.2
    · rw [hda]
      exact hi.1
  · intro ha hd hq
    have hda : dealFillEvent b f =
        incPosition
          { b with fill_record := b.fill_record ++ [f],
                   unfilled_order := eraseKey b.unfilled_order f.index }
          f.instrument SignalType.SHORT f.quantity := by
      simp only [dealFillEvent, hout, if_true]
      rw [if_pos ha, if_neg (by rw [hd]; decide), if_pos hd]
    have hi := incPosition_of_pos
      { b with fill_record := b.fill_record ++ [f],
               unfilled_order := eraseKey b.unfilled_order f.index }
      f.instrument SignalType.SHORT f.quantity (Or.inr rfl) hq
    constructor
    · show getPosition (dealFillEvent b f).1 f.instrument SignalType.SHORT =
        getPosition b f.instrument SignalType.SHORT + f.quantity
      rw [hda]
      exact hi.2
    · rw [hda]
      exact hi.1
  · intro ha hd hq hle
    have hda : dealFillEvent b f =
        decPosition
          { b with fill_record := b.fill_record ++ [f],
                   unfilled_order := eraseKey b.unfilled_order f.index }
          f.instrument SignalType.SHORT f.quantity := by
      simp only [dealFillEvent, hout, if_true]
      rw [if_neg (by rw [ha]; decide), if_pos ha, if_pos hd]
    have hdp := decPosition_of_le
      { b with fill_record := b.fill_record ++ [f],
               unfilled_order := eraseKey b.unfilled_order f.index }
      f.instrument SignalType.SHORT f.quantity (Or.inr rfl) hq hle
    constructor
    · show getPosition (dealFillEvent b f).1 f.instrument SignalType.SHORT =
        getPosition b f.instrument SignalType.SHORT - f.quantity
      rw [hda]
      exact hdp.2
    · rw [hda]
      exact hdp.1
  · intro ha hd hq hle
    have hda : dealFillEvent b f =
        decPosition
          { b with fill_record := b.fill_record ++ [f],
                   unfilled_order := eraseKey b.unfilled_order f.index }
          f.instrument SignalType.LONG f.quantity := by
      simp only [dealFillEvent, hout, if_true]
      rw [if_neg (by rw [ha]; decide), if_pos ha,
        if_neg (by rw [hd]; decide), if_pos hd]
    have hdp := decPosition_of_le
      { b with fill_record := b.fill_record ++ [f],
               unfilled_order := eraseKey b.unfilled_order f.index }
      f.instrument SignalType.LONG f.quantity (Or.inl rfl) hq hle
    constructor
    · show getPosition (dealFillEvent b f).1 f.instrument SignalType.LONG =
        getPosition b f.instrument SignalType.LONG - f.quantity
      rw [hda]
      exact hdp.2
    · rw [hda]
      exact hdp.1
  · intro hbad
    simp only [dealFillEvent, hout, if_true]
    rcases hbad with ⟨ha1, ha2⟩ | ⟨hd1, hd2⟩
    · rw [if_neg ha1, if_neg ha2]
    · by_cases ha : f.action = ActionType.OPEN
      · rw [if_pos ha, if_neg hd1, if_neg hd2]
      · by_cases hc : f.action = ActionType.CLOSE
        · rw [if_neg ha, if_pos hc, if_neg hd1, if_neg hd2]
        · rw [if_neg ha, if_neg hc]

/-- Witness for C3: the spec's scenario — order 7 outstanding, OPEN/BUY fill
of quantity 2 raises the long side from 0 to 2 and fails nothing. -/
theorem dealFillEvent_reconciliation_witness :
    (containsKey (dealOrderEvent emptyPortfolio orderO7).1.unfilled_order
        fillF7.index = true ∧
      fillF7.action = ActionType.OPEN ∧
      fillF7.direction = DirectionType.BUY ∧ (0 : Int) < fillF7.quantity) ∧
    (getLongPosition
        (dealFillEvent (dealOrderEvent emptyPortfolio orderO7).1 fillF7).1
        fillF7.instrument =
      getLongPosition (dealOrderEvent emptyPortfolio orderO7).1
          fillF7.instrument + fillF7.quantity ∧
      (dealFillEvent (dealOrderEvent emptyPortfolio orderO7).1 fillF7).2 =
        none) :=
  ⟨⟨by decide, by decide, by decide, by decide⟩,
    (dealFillEvent_reconciliation (dealOrderEvent emptyPortfolio orderO7).1
      fillF7 (by decide)).1 (by decide) (by decide) (by decide)⟩

/-- C1: the tick-unit sizing policy emits a MARKET order of quantity 1; a
LONG signal buys, closing exactly when the short position minus the
outstanding CLOSE/BUY quantity is positive, and a SHORT signal sells,
closing exactly when the long position minus the outstanding CLOSE/SELL
quantity is positive. -/
theorem tick_dealSignal_sizing (env : EngineEnv) (st : PortfolioState)
    (ev : SignalEvent) (book : PortfolioPerStrategy) (st2 : PortfolioState)
    (o : OrderEvent)
    (hb : lookupKey st.strategy_portfolio_dict ev.strategy_name = some book)
    (h : SimpleTickPortfolio.dealSignal env st ev = .ok (st2, o)) :
    (ev.signal_type = SignalType.LONG →
      o.action = (if 0 < getShortPosition book ev.instrument -
          getCloseBuyUnfilledOrder book ev.instrument
        then ActionType.CLOSE else ActionType.OPEN) ∧
      o.direction = DirectionType.BUY ∧ o.quantity = 1 ∧
      o.order_type = OrderType.MARKET) ∧
    (ev.signal_type = SignalType.SHORT →
      o.action = (if 0 < getLongPosition book ev.instrument -
          getCloseSellUnfilledOrder book ev.instrument
        then ActionType.CLOSE else ActionType.OPEN) ∧
      o.direction = DirectionType.SELL ∧ o.quantity = 1 ∧
      o.order_type = OrderType.MARKET) := by
  simp only [SimpleTickPortfolio.dealSignal, hb] at h
  constructor
  · intro hsig
    rw [hsig, if_pos rfl] at h
    have ho := finishSignal_ok _ _ _ _ _ _ h
    subst ho
    exact ⟨rfl, rfl, rfl, rfl⟩
  · intro hsig
    rw [hsig, if_neg (by decide), if_pos rfl] at h
    have ho := finishSignal_ok _ _ _ _ _ _ h
    subst ho
    exact ⟨rfl, rfl, rfl, rfl⟩

/-- The order the tick policy emits in the short-3 scenario. -/
def orderOutTickX : OrderEvent :=
  { index := 0, instrument := "X", tradingday := 20170101, datetime := 9,
    order_type := OrderType.MARKET, action := ActionType.CLOSE,
    direction := DirectionType.BUY, quantity := 1, price := none }

/-- The manager state after the tick policy handled `evLongX` on
`stShortX`. -/
def stOutTickX : PortfolioState :=
  { order_index := 1,
    order_strategy_dict := [(0, "s")],
    strategy_portfolio_dict := [("s",
      { signal_record := [evLongX], order_record := [orderOutTickX],
        fill_record := [],
        position := [("X", { long := 0, short := 3 })],
        unfilled_order := [(0, orderOutTickX)] })] }

/-- Witness for C1: the spec's short-3 scenario — a LONG signal on a book
short 3 of `X` yields a CLOSE/BUY MARKET order of quantity 1. -/
theorem tick_dealSignal_sizing_witness :
    (lookupKey stShortX.strategy_portfolio_dict evLongX.strategy_name =
        some bookShortX ∧
      SimpleTickPortfolio.dealSignal envX stShortX evLongX =
        .ok (stOutTickX, orderOutTickX)) ∧
    ((evLongX.signal_type = SignalType.LONG →
      orderOutTickX.action = (if 0 < getShortPosition bookShortX evLongX.instrument -
          getCloseBuyUnfilledOrder bookShortX evLongX.instrument
        then ActionType.CLOSE else ActionType.OPEN) ∧
      orderOutTickX.direction = DirectionType.BUY ∧
      orderOutTickX.quantity = 1 ∧
      orderOutTickX.order_type = OrderType.MARKET) ∧
    (evLongX.signal_type = SignalType.SHORT →
      orderOutTickX.action = (if 0 < getLongPosition bookShortX evLongX.instrument -
          getCloseSellUnfilledOrder bookShortX evLongX.instrument
        then ActionType.CLOSE else ActionType.OPEN) ∧
      orderOutTickX.direction = DirectionType.SELL ∧
      orderOutTickX.quantity = 1 ∧
      orderOutTickX.order_type = OrderType.MARKET)) :=
  ⟨⟨by decide, by rfl⟩,
    tick_dealSignal_sizing envX stShortX evLongX bookShortX stOutTickX
      orderOutTickX (by decide) (by rfl)⟩

/-- C2: against a book long 1 of `X` with nothing outstanding, the same
SHORT signal is answered with a CLOSE order by the tick policy but with an
OPEN order by the bar policy — the bar policy's decision rule (which reads
the short position in both branches) diverges from the tick policy's. -/
theorem bar_tick_decision_diverge :
    Except.map (fun p => p.2.action)
        (SimpleTickPortfolio.dealSignal envX stLong1X evShortX) =
      .ok ActionType.CLOSE ∧
    Except.map (fun p => p.2.action)
        (SimpleBarPortfolio.dealSignal envX (mkSimpleBarPortfolio stLong1X)
          evShortX) =
      .ok ActionType.OPEN :=
  ⟨by rfl, by rfl⟩

/-- C8: processing any error-free event sequence from the fresh book keeps
every instrument's long and short position nonnegative after every event:
every prefix of the sequence leaves a book whose positions are all ≥ 0. -/
theorem positions_nonneg_after_each (pre suf : List BEvent)
    (bfin : PortfolioPerStrategy)
    (h : processValid emptyPortfolio (pre ++ suf) = some bfin) :
    nonnegBook bfin ∧
      ∃ bp, processValid emptyPortfolio pre = some bp ∧ nonnegBook bp := by
  obtain ⟨bp, h1, _h2⟩ := processValid_append pre suf emptyPortfolio bfin h
  exact ⟨nonnegBook_processValid _ _ _ nonnegBook_empty h,
    bp, h1, nonnegBook_processValid _ _ _ nonnegBook_empty h1⟩

/-- The book after order 7 is submitted and filled OPEN/BUY for 2. -/
def bookAfterF7 : PortfolioPerStrategy :=
  { signal_record := [], order_record := [orderO7], fill_record := [fillF7],
    position := [("X", { long := 2, short := 0 })], unfilled_order := [] }

/-- Witness for C8: the order-then-fill sequence for order 7 processes
without error and every prefix leaves only nonnegative positions. -/
theorem positions_nonneg_after_each_witness :
    processValid emptyPortfolio
        ([BEvent.ord orderO7] ++ [BEvent.fill fillF7]) = some bookAfterF7 ∧
    (nonnegBook bookAfterF7 ∧
      ∃ bp, processValid emptyPortfolio [BEvent.ord orderO7] = some bp ∧
        nonnegBook bp) :=
  ⟨by decide,
    positions_nonneg_after_each [BEvent.ord orderO7] [BEvent.fill fillF7]
      bookAfterF7 (by decide)⟩

/-- C9: every order the bar-limit policy emits is a LIMIT order of
quantity 1 priced at the most recent value of the configured price column,
and a freshly constructed bar portfolio's configured column is the closing
price. -/
theorem bar_dealSignal_limit_price (env : EngineEnv)
    (bp : SimpleBarPortfolio) (ev : SignalEvent) (bp2 : SimpleBarPortfolio)
    (o : OrderEvent)
    (h : SimpleBarPortfolio.dealSignal env bp ev = .ok (bp2, o)) :
    o.order_type = OrderType.LIMIT ∧ o.quantity = 1 ∧
    o.price = (env.market_data ev.instrument bp.price_index).getLast? ∧
    ∀ st, (mkSimpleBarPortfolio st).price_index = "closeprice" := by
  simp only [SimpleBarPortfolio.dealSignal] at h
  split at h
  · exact absurd h (by simp)
  · split at h
    · exact absurd h (by simp)
    · rename_i o0 heq2
      split at h
      · exact absurd h (by simp)
      · rename_i v heq3
        split at h
        · exact absurd h (by simp)
        · rename_i st3 o3 heq4
          injection h with h5
          injection h5 with h6 h7
          have ho3 := finishSignal_ok _ _ _ _ _ _ heq4
          subst h7
          subst ho3
          split at heq2
          · injection heq2 with h8
            subst h8
            exact ⟨rfl, rfl, by rw [heq3], fun st => rfl⟩
          · split at heq2
            · injection heq2 with h8
              subst h8
              exact ⟨rfl, rfl, by rw [heq3], fun st => rfl⟩
            · exact absurd heq2 (by simp)

/-- The order the bar policy emits for `evLongX` on `stShortX`. -/
def orderOutBarX : OrderEvent :=
  { index := 0, instrument := "X", tradingday := 20170101, datetime := 9,
    order_type := OrderType.LIMIT, action := ActionType.CLOSE,
    direction := DirectionType.BUY, quantity := 1, price := some 101 }

/-- The bar portfolio after handling `evLongX` on `stShortX`. -/
def barOutX : SimpleBarPortfolio :=
  { base :=
      { order_index := 1,
        order_strategy_dict := [(0, "s")],
        strategy_portfolio_dict := [("s",
          { signal_record := [evLongX], order_record := [orderOutBarX],
            fill_record := [],
            position := [("X", { long := 0, short := 3 })],
            unfilled_order := [(0, orderOutBarX)] })] },
    price_index := "closeprice" }

/-- Witness for C9: on market data ending at 101 the bar policy emits a
LIMIT order of quantity 1 priced 101. -/
theorem bar_dealSignal_limit_price_witness :
    SimpleBarPortfolio.dealSignal envX (mkSimpleBarPortfolio stShortX)
        evLongX = .ok (barOutX, orderOutBarX) ∧
    (orderOutBarX.order_type = OrderType.LIMIT ∧ orderOutBarX.quantity = 1 ∧
      orderOutBarX.price =
        (envX.market_data evLongX.instrument
          (mkSimpleBarPortfolio stShortX).price_index).getLast? ∧
      ∀ st, (mkSimpleBarPortfolio st).price_index = "closeprice") :=
  ⟨by rfl,
    bar_dealSignal_limit_price envX (mkSimpleBarPortfolio stShortX) evLongX
      barOutX orderOutBarX (by rfl)⟩

end ParadoxTrading
